import Mathlib

set_option maxRecDepth 100000

/-!
Verification development for the create2gpu repository: a GPU-accelerated
CREATE2 salt miner.  The host-side logic of src/gpu.rs and src/lib.rs is
shallowly embedded below; machine integers are modelled as Nat with explicit
reductions modulo 2^w, byte strings as List Nat of ASCII codes / byte values.
-/

namespace Create2Gpu

/-- 2^64 - 1, the mask for a 64-bit lane. -/
def mask64 : Nat := 0xFFFFFFFFFFFFFFFF

/-- Rotate a 64-bit lane left by n bits (0 ≤ n < 64). -/
def rotl64 (x n : Nat) : Nat := ((x <<< n) ||| (x >>> (64 - n))) % (2 ^ 64)

/-- Keccak-f[1600] round constants. -/
def keccakRC : List Nat :=
  [0x0000000000000001, 0x0000000000008082, 0x800000000000808a, 0x8000000080008000,
   0x000000000000808b, 0x0000000080000001, 0x8000000080008081, 0x8000000000008009,
   0x000000000000008a, 0x0000000000000088, 0x0000000080008009, 0x000000008000000a,
   0x000000008000808b, 0x800000000000008b, 0x8000000000008089, 0x8000000000008003,
   0x8000000000008002, 0x8000000000000080, 0x000000000000800a, 0x800000008000000a,
   0x8000000080008081, 0x8000000000008080, 0x0000000080000001, 0x8000000080008008]

/-- For each destination lane index (flat x + 5y), the source lane index moved
there by the pi step of Keccak-f. -/
def piSrc : List Nat :=
  [0, 6, 12, 18, 24, 3, 9, 10, 16, 22, 1, 7, 13, 19, 20, 4, 5, 11, 17, 23, 2, 8, 14, 15, 21]

/-- Rho rotation amounts indexed by destination lane: entry j is the rho
offset of the source lane piSrc j (the rho table composed through pi). -/
def rotOfDest : List Nat :=
  [0, 44, 43, 21, 14,
   28, 20, 3, 45, 61,
   1, 6, 25, 8, 18,
   27, 36, 10, 15, 56,
   62, 55, 39, 41, 2]

/-- One round of Keccak-f[1600] on a 25-lane state. -/
def keccakRound (A : List Nat) (rc : Nat) : List Nat :=
  let C := (List.range 5).map (fun x =>
    A.getD x 0 ^^^ A.getD (x + 5) 0 ^^^ A.getD (x + 10) 0 ^^^
      A.getD (x + 15) 0 ^^^ A.getD (x + 20) 0)
  let D := (List.range 5).map (fun x =>
    C.getD ((x + 4) % 5) 0 ^^^ rotl64 (C.getD ((x + 1) % 5) 0) 1)
  let A1 := (List.range 25).map (fun i => A.getD i 0 ^^^ D.getD (i % 5) 0)
  let B := (List.range 25).map (fun j =>
    rotl64 (A1.getD (piSrc.getD j 0) 0) (rotOfDest.getD j 0))
  let A2 := (List.range 25).map (fun i =>
    B.getD i 0 ^^^ ((mask64 ^^^ B.getD (5 * (i / 5) + (i + 1) % 5) 0) &&&
      B.getD (5 * (i / 5) + (i + 2) % 5) 0))
  A2.set 0 (A2.getD 0 0 ^^^ rc)

/-- The full 24-round Keccak-f[1600] permutation. -/
def keccakF (A : List Nat) : List Nat := keccakRC.foldl keccakRound A

/-- Eight bytes (little-endian) to one 64-bit lane. -/
def bytesToLane (bs : List Nat) : Nat := bs.foldr (fun b acc => acc * 256 + b) 0

/-- Keccak-256 (the pre-SHA3 padding 0x01…0x80 used by Ethereum and by the
tiny_keccak crate the host calls) of a message of at most 134 bytes: one
absorb block at rate 136. -/
def keccak256 (msg : List Nat) : List Nat :=
  let padded := msg ++ [0x01] ++ List.replicate (134 - msg.length) 0 ++ [0x80]
  let lanes := (List.range 25).map (fun i =>
    if i < 17 then bytesToLane ((padded.drop (8 * i)).take 8) else 0)
  let final := keccakF lanes
  (List.range 32).map (fun i => (final.getD (i / 8) 0 >>> (8 * (i % 8))) % 256)

/-- ASCII lowercase of a byte (Rust str::to_lowercase restricted to the ASCII
strings the host manipulates). -/
def toLowerByte (c : Nat) : Nat := if 65 ≤ c ∧ c ≤ 90 then c + 32 else c

/-- ASCII uppercase of a byte (Rust char::to_ascii_uppercase). -/
def toUpperByte (c : Nat) : Nat := if 97 ≤ c ∧ c ≤ 122 then c - 32 else c

/-- Lowercase hex digit character for a nibble (hex crate digit table). -/
def hexDigit (n : Nat) : Nat := if n < 10 then 48 + n else 87 + n

/-- Model of hex::encode: two lowercase hex digit characters per byte. -/
def hexEncode (bs : List Nat) : List Nat :=
  bs.foldr (fun b acc => hexDigit (b / 16) :: hexDigit (b % 16) :: acc) []

/-- True for characters of a lowercase hex string: ASCII digits and a-f. -/
def isLowerHex (c : Nat) : Bool := (48 ≤ c && c ≤ 57) || (97 ≤ c && c ≤ 102)

/-- src/lib.rs u64_to_le_fixed_8: the little-endian byte decomposition of a
64-bit word; each shift-and-mask is kept exactly as written. -/
def u64_to_le_fixed_8 (x : Nat) : List Nat :=
  let mask : Nat := 0xff
  let b1 : Nat := (x >>> 56) &&& mask
  let b2 : Nat := (x >>> 48) &&& mask
  let b3 : Nat := (x >>> 40) &&& mask
  let b4 : Nat := (x >>> 32) &&& mask
  let b5 : Nat := (x >>> 24) &&& mask
  let b6 : Nat := (x >>> 16) &&& mask
  let b7 : Nat := (x >>> 8) &&& mask
  let b8 : Nat := x &&& mask
  [b8, b7, b6, b5, b4, b3, b2, b1]

/-- The per-character loop of src/gpu.rs to_checksum_address, applied to the
lowercased stripped address (digits are kept, letters are upper-cased when the
corresponding nibble of the keccak-256 hash of the address is at least 8). -/
def checksumCore (address : List Nat) : List Nat :=
  let hash := keccak256 address
  address.enum.map (fun ic =>
    if 48 ≤ ic.2 ∧ ic.2 ≤ 57 then ic.2
    else
      if 8 ≤ (hash.getD (ic.1 / 2) 0 >>> (if ic.1 % 2 = 0 then 4 else 0)) &&& 0xf
      then toUpperByte ic.2 else ic.2)

/-- src/gpu.rs to_checksum_address over ASCII byte lists: strip an optional
0x, lowercase, then apply the checksum loop and re-attach the 0x. -/
def to_checksum_address (address : List Nat) : List Nat :=
  let address := if address.take 2 = [48, 120] then address.drop 2 else address
  let address := address.map toLowerByte
  48 :: 120 :: checksumCore address

/-- The claim's EIP-55 formula: the 40-digit lowercase address is hashed as
ASCII bytes, and position i is upper-cased iff it holds a letter and the i-th
nibble of the hash is at least 8; digits are left unchanged. -/
def checksumSpec (s : List Nat) : List Nat :=
  48 :: 120 :: (List.range 40).map (fun i =>
    if (97 ≤ s.getD i 0 ∧ s.getD i 0 ≤ 122) ∧
        8 ≤ ((keccak256 s).getD (i / 2) 0 >>> (if i % 2 = 0 then 4 else 0)) &&& 0xf
    then toUpperByte (s.getD i 0) else s.getD i 0)

/-- Rust str::split(',') over byte lists. -/
def splitComma : List Nat → List (List Nat)
  | [] => [[]]
  | c :: rest =>
    let r := splitComma rest
    if c = 44 then [] :: r else (c :: r.headD []) :: r.tail

/-- ASCII digit test. -/
def isAsciiDigit (c : Nat) : Bool := 48 ≤ c && c ≤ 57

/-- Decimal value of a digit string. -/
def digitsToNat (s : List Nat) : Nat := s.foldl (fun acc c => acc * 10 + (c - 48)) 0

/-- Model of str::parse::<usize> on a 64-bit host: an optional leading plus
sign, then one or more ASCII digits, with the value below 2^64. -/
def parseUsize (s : List Nat) : Option Nat :=
  let digits := match s with
    | 43 :: rest => rest
    | _ => s
  if digits ≠ [] ∧ digits.all isAsciiDigit = true ∧ digitsToNat digits < 2 ^ 64 then
    some (digitsToNat digits)
  else none

/-- The loop body of src/gpu.rs read_current_best_score: split the line on
commas, and when there are at least three fields and the third parses as a
usize, keep it if it beats the running best. -/
def bestScoreFold (best_score : Nat) (line : List Nat) : Nat :=
  let parts := splitComma line
  if parts.length ≥ 3 then
    match parseUsize (parts.getD 2 []) with
    | some score => if score > best_score then score else best_score
    | none => best_score
  else best_score

/-- src/gpu.rs read_current_best_score.  The file argument is none when the
CSV cannot be opened, otherwise the list of its lines (ASCII byte lists); the
fold skips the header line, lines with fewer than three comma-separated
fields, and lines whose third field does not parse. -/
def read_current_best_score (file : Option (List (List Nat))) : Nat :=
  match file with
  | none => 0
  | some lines => (lines.drop 1).foldl bestScoreFold 0

/-- The parsed score of one line: its third comma-separated field, when that
exists and parses as a usize. -/
def parseScoreField (line : List Nat) : Option Nat :=
  let parts := splitComma line
  if parts.length ≥ 3 then parseUsize (parts.getD 2 []) else none

/-- The score column of a Result Sink file: parsed third fields of the data
lines that have at least three comma-separated fields and a parseable score. -/
def scoreColumn (lines : List (List Nat)) : List Nat :=
  (lines.drop 1).filterMap parseScoreField

/-- src/gpu.rs lines 39-49: the 55-byte kernel message, deployer then init
code hash then the three filter bytes (each pushed with an `as u8` cast). -/
def buildMessage (factory init_hash : List Nat)
    (min_leading_ones min_trailing_ones best_score : Nat) : List Nat :=
  factory ++ init_hash ++
    [min_leading_ones % 256, min_trailing_ones % 256, best_score % 256]

/-- src/gpu.rs lines 273-278: the 32-byte salt, all zeros with the solution
bytes copied over its tail. -/
def fullSalt (solution_bytes : List Nat) : List Nat :=
  let solution_len := min solution_bytes.length 8
  (List.replicate 32 0).take (32 - solution_len) ++ solution_bytes.take solution_len

/-- The address the kernel reported: bytes 12..32 of digest_output,
hex-encoded (src/gpu.rs lines 240-242). -/
def addressFromDigest (digest_output : List Nat) : List Nat :=
  hexEncode ((digest_output.drop 12).take 20)

/-- One line of the Result Sink, as the host assembles it before writing. -/
structure HitRecord where
  address : List Nat
  salt : List Nat
  score : Nat
  leading_ones : Nat
  trailing_ones : Nat
deriving DecidableEq, Repr

/-- src/gpu.rs lines 233-341, the per-dispatch hit processing, as a pure
function from the buffers read back from the device to the record written to
the Result Sink (none when nothing is written). -/
def processSolution (factory init_hash : List Nat) (best_score : Nat)
    (solutions : List Nat) (has_solution : Nat) (digest_output : List Nat) :
    Option HitRecord :=
  if has_solution ≠ 0 then
    let solution_bytes := u64_to_le_fixed_8 (solutions.getD 0 0)
    let leading_ones := solutions.getD 1 0
    let trailing_ones := solutions.getD 2 0
    let _hex_address := addressFromDigest digest_output
    let current_score := leading_ones + trailing_ones
    if current_score ≥ 11 ∨ current_score > best_score then
      let full_salt := fullSalt solution_bytes
      let hash_result := keccak256 ([0xff] ++ factory ++ full_salt ++ init_hash)
      let computed_address := (hash_result.drop 12).take 20
      let computed_hex := hexEncode computed_address
      let computed_checksummed := to_checksum_address computed_hex
      some { address := computed_checksummed, salt := full_salt,
             score := current_score, leading_ones := leading_ones,
             trailing_ones := trailing_ones }
    else none
  else none

/-- The host-side mutable state of the main loop (src/gpu.rs lines 34-49 and
196-205); message is the host Vec<u8>, not the device buffer.  Wall-clock
seconds are rationals. -/
structure SessionState where
  lastScoreCheck : ℚ
  cachedBestScore : Nat
  message : List Nat
deriving DecidableEq

/-- src/gpu.rs lines 196-205, the head of the main loop: refresh the cached
best score from the Result Sink when at least five seconds have passed, then
overwrite byte 54 of the HOST Vec with it (line 205 mutates only the host
copy; it performs no device transfer). -/
def loopHead (st : SessionState) (currentTime : ℚ)
    (file : Option (List (List Nat))) : SessionState :=
  let refresh := currentTime - st.lastScoreCheck ≥ 5
  let cached := if refresh then read_current_best_score file else st.cachedBestScore
  let lastCheck := if refresh then currentTime else st.lastScoreCheck
  { lastScoreCheck := lastCheck, cachedBestScore := cached,
    message := st.message.set 54 (cached % 256) }

/-- A session together with the device-resident copy of the message:
message is the host Vec<u8>; deviceMessage is the contents of
message_buffer, the buffer the kernel is built against
(src/gpu.rs lines 158-163 and 187-193). -/
structure GpuSession where
  lastScoreCheck : ℚ
  cachedBestScore : Nat
  message : List Nat
  deviceMessage : List Nat
deriving DecidableEq

/-- src/gpu.rs lines 34-49 and 158-163: at session start the best score is
read from the Result Sink, the 55-byte message is built from it, and
message_buffer is created with copy_host_slice of that message - a one-time
host-to-device copy. -/
def sessionInit (t0 : ℚ) (factory init_hash : List Nat)
    (min_leading_ones min_trailing_ones : Nat)
    (file : Option (List (List Nat))) : GpuSession :=
  let best := read_current_best_score file
  let message := buildMessage factory init_hash min_leading_ones min_trailing_ones best
  { lastScoreCheck := t0, cachedBestScore := best,
    message := message, deviceMessage := message }

/-- src/gpu.rs lines 196-218: one iteration's loop head and dispatch
preamble.  The host Vec is refreshed (lines 196-205) and the nonce buffer is
rewritten (line 212), but no write to message_buffer exists anywhere in the
loop, so the device message is carried over unchanged - the kernel keeps
reading the startup copy. -/
def dispatchStep (st : GpuSession) (currentTime : ℚ)
    (file : Option (List (List Nat))) : GpuSession :=
  let st' := loopHead ⟨st.lastScoreCheck, st.cachedBestScore, st.message⟩ currentTime file
  { lastScoreCheck := st'.lastScoreCheck, cachedBestScore := st'.cachedBestScore,
    message := st'.message, deviceMessage := st.deviceMessage }

/-- Outcome of one attempt to append a hit to the Result Sink. -/
inductive SinkOutcome where
  | exited (code : Nat)
  | continued (appended : List (List Nat)) (logged_errors : Nat)
deriving DecidableEq

/-- src/gpu.rs lines 306-341: open the CSV in append mode, exiting the
process when the open fails; write the header when the file is new and the
data line after it, logging (and otherwise ignoring) write failures. -/
def appendHit (file_exists open_ok header_ok data_ok : Bool)
    (header_line data_line : List Nat) : SinkOutcome :=
  if !open_ok then .exited 1
  else
    let headerWrites := if !file_exists then (if header_ok then [header_line] else []) else []
    let headerErrs := if !file_exists && !header_ok then 1 else 0
    let dataWrites := if data_ok then [data_line] else []
    let dataErrs := if data_ok then 0 else 1
    .continued (headerWrites ++ dataWrites) (headerErrs + dataErrs)

/-- Modelled from the spec: the on-device VanityOnes filter of
src/kernels/keccak256.cl, which is not under src/.  Per spec section 4.1 step
5, a work item reports a hit only when its leading-ones count is at least
message byte 52, its trailing-ones count is at least byte 53, and their sum
strictly exceeds byte 54 (the best-score filter byte). -/
def kernelPass (message : List Nat) (leading_ones trailing_ones : Nat) : Prop :=
  message.getD 52 0 ≤ leading_ones ∧ message.getD 53 0 ≤ trailing_ones ∧
    message.getD 54 0 < leading_ones + trailing_ones

/-! ### Helper lemmas -/

lemma isLowerHex_iff {c : Nat} :
    isLowerHex c = true ↔ ((48 ≤ c ∧ c ≤ 57) ∨ (97 ≤ c ∧ c ≤ 102)) := by
  simp [isLowerHex]

lemma toLowerByte_eq_self {c : Nat} (h : isLowerHex c = true) : toLowerByte c = c := by
  rcases isLowerHex_iff.mp h with h' | h' <;> · unfold toLowerByte; rw [if_neg (by omega)]

lemma toLowerByte_toUpperByte {c : Nat} (h : isLowerHex c = true) :
    toLowerByte (toUpperByte c) = c := by
  rcases isLowerHex_iff.mp h with h' | h' <;>
    · simp only [toUpperByte, toLowerByte]
      split_ifs <;> omega

lemma hexDigit_lowerHex {n : Nat} (h : n < 16) : isLowerHex (hexDigit n) = true := by
  rw [isLowerHex_iff]; unfold hexDigit; split <;> omega

lemma hexEncode_cons (b : Nat) (bs : List Nat) :
    hexEncode (b :: bs) = hexDigit (b / 16) :: hexDigit (b % 16) :: hexEncode bs := rfl

lemma mem_hexEncode_lowerHex {bs : List Nat} (hb : ∀ b ∈ bs, b < 256) :
    ∀ c ∈ hexEncode bs, isLowerHex c = true := by
  induction bs with
  | nil => intro c hc; simp [hexEncode] at hc
  | cons b bs ih =>
    intro c hc
    rw [hexEncode_cons] at hc
    simp only [List.mem_cons] at hc
    have hb0 : b < 256 := hb b (by simp)
    rcases hc with hc | hc | hc
    all_goals try subst hc
    · exact hexDigit_lowerHex (by omega)
    · exact hexDigit_lowerHex (by omega)
    · exact ih (fun x hx => hb x (by simp [hx])) c hc

lemma hexEncode_length (bs : List Nat) : (hexEncode bs).length = 2 * bs.length := by
  induction bs with
  | nil => rfl
  | cons b bs ih => rw [hexEncode_cons]; simp [ih]; omega

lemma keccak256_length (msg : List Nat) : (keccak256 msg).length = 32 := by
  simp [keccak256]

lemma keccak256_mem_lt (msg : List Nat) : ∀ b ∈ keccak256 msg, b < 256 := by
  intro b hb
  simp only [keccak256, List.mem_map, List.mem_range] at hb
  obtain ⟨i, _, rfl⟩ := hb
  exact Nat.mod_lt _ (by omega)

lemma enumFrom_map_f (f : Nat → Nat → Nat) :
    ∀ (l : List Nat) (n : Nat),
      (l.enumFrom n).map (fun ic => f ic.1 ic.2) =
        (List.range l.length).map (fun i => f (n + i) (l.getD i 0)) := by
  intro l
  induction l with
  | nil => intro n; rfl
  | cons a l ih =>
    intro n
    show f n a :: (l.enumFrom (n + 1)).map (fun ic => f ic.1 ic.2) = _
    rw [ih (n + 1)]
    rw [show (a :: l).length = l.length + 1 from rfl, List.range_succ_eq_map]
    simp only [List.map_cons, List.map_map, Nat.add_zero, List.getD_cons_zero]
    congr 1
    apply List.map_congr_left
    intro i _
    simp only [Function.comp]
    rw [List.getD_cons_succ]
    congr 1
    omega

lemma enum_map_f (f : Nat → Nat → Nat) (l : List Nat) :
    l.enum.map (fun ic => f ic.1 ic.2) =
      (List.range l.length).map (fun i => f i (l.getD i 0)) := by
  have h := enumFrom_map_f f l 0
  simpa using h

lemma range_map_getD (l : List Nat) :
    (List.range l.length).map (fun i => l.getD i 0) = l := by
  apply List.ext_getElem?
  intro n
  by_cases hn : n < l.length
  · rw [List.getElem?_map, List.getElem?_range hn]
    simp [List.getD_eq_getElem?_getD, List.getElem?_eq_getElem hn]
  · have h1 : l.length ≤ n := by omega
    rw [List.getElem?_eq_none (by simpa using h1), List.getElem?_eq_none h1]

lemma checksumCore_eq_range (s : List Nat) :
    checksumCore s = (List.range s.length).map (fun i =>
      if 48 ≤ s.getD i 0 ∧ s.getD i 0 ≤ 57 then s.getD i 0
      else
        if 8 ≤ ((keccak256 s).getD (i / 2) 0 >>> (if i % 2 = 0 then 4 else 0)) &&& 0xf
        then toUpperByte (s.getD i 0) else s.getD i 0) := by
  unfold checksumCore
  exact enum_map_f (fun i c =>
    if 48 ≤ c ∧ c ≤ 57 then c
    else
      if 8 ≤ ((keccak256 s).getD (i / 2) 0 >>> (if i % 2 = 0 then 4 else 0)) &&& 0xf
      then toUpperByte c else c) s

lemma getD_mem_of_lt {l : List Nat} {i : Nat} (h : i < l.length) : l.getD i 0 ∈ l := by
  rw [List.getD_eq_getElem?_getD, List.getElem?_eq_getElem h]
  exact List.getElem_mem h

lemma map_toLower_checksumCore (s : List Nat) (hs : ∀ c ∈ s, isLowerHex c = true) :
    (checksumCore s).map toLowerByte = s := by
  rw [checksumCore_eq_range, List.map_map]
  have hcongr : ∀ i ∈ List.range s.length,
      (toLowerByte ∘ fun i =>
        if 48 ≤ s.getD i 0 ∧ s.getD i 0 ≤ 57 then s.getD i 0
        else
          if 8 ≤ ((keccak256 s).getD (i / 2) 0 >>> (if i % 2 = 0 then 4 else 0)) &&& 0xf
          then toUpperByte (s.getD i 0) else s.getD i 0) i = s.getD i 0 := by
    intro i hi
    have hlt : i < s.length := List.mem_range.mp hi
    have hc : isLowerHex (s.getD i 0) = true := hs _ (getD_mem_of_lt hlt)
    simp only [Function.comp]
    split_ifs <;>
      first
        | exact toLowerByte_eq_self hc
        | exact toLowerByte_toUpperByte hc
  rw [List.map_congr_left hcongr, range_map_getD]

lemma to_checksum_address_lowerHex (s : List Nat) (hs : ∀ c ∈ s, isLowerHex c = true) :
    to_checksum_address s = 48 :: 120 :: checksumCore s := by
  unfold to_checksum_address
  have h1 : ¬ s.take 2 = [48, 120] := by
    intro h
    have h120 : (120 : Nat) ∈ s.take 2 := by rw [h]; simp
    have := hs 120 (List.mem_of_mem_take h120)
    simp [isLowerHex] at this
  rw [if_neg h1]
  have h2 : s.map toLowerByte = s := by
    have : s.map toLowerByte = s.map id :=
      List.map_congr_left (fun c hc => toLowerByte_eq_self (hs c hc))
    rw [this, List.map_id]
  show 48 :: 120 :: checksumCore (s.map toLowerByte) = 48 :: 120 :: checksumCore s
  rw [h2]

lemma u64_to_le_fixed_8_length (x : Nat) : (u64_to_le_fixed_8 x).length = 8 := rfl

lemma fullSalt_eq (solution_bytes : List Nat) (h : solution_bytes.length = 8) :
    fullSalt solution_bytes = List.replicate 24 0 ++ solution_bytes := by
  unfold fullSalt
  show (List.replicate 32 0).take (32 - min solution_bytes.length 8) ++
      solution_bytes.take (min solution_bytes.length 8) =
    List.replicate 24 0 ++ solution_bytes
  rw [h]
  norm_num [List.take_replicate]
  omega

/-- Inversion of the hit-processing step: the record written to the Result
Sink is fully determined by the solutions buffer and the configuration; the
digest_output buffer does not influence it. -/
lemma processSolution_inv {factory init_hash : List Nat} {best_score : Nat}
    {solutions : List Nat} {has_solution : Nat} {digest_output : List Nat}
    {rec : HitRecord}
    (hp : processSolution factory init_hash best_score solutions has_solution
      digest_output = some rec) :
    rec = { address := to_checksum_address (hexEncode
              (((keccak256 ([0xff] ++ factory ++
                fullSalt (u64_to_le_fixed_8 (solutions.getD 0 0)) ++
                init_hash)).drop 12).take 20)),
            salt := fullSalt (u64_to_le_fixed_8 (solutions.getD 0 0)),
            score := solutions.getD 1 0 + solutions.getD 2 0,
            leading_ones := solutions.getD 1 0,
            trailing_ones := solutions.getD 2 0 } := by
  simp only [processSolution] at hp
  split at hp
  · split at hp
    · exact (Option.some.inj hp).symm
    · exact absurd hp (by simp)
  · exact absurd hp (by simp)

lemma bestScoreFold_eq_max (b : Nat) (line : List Nat) :
    bestScoreFold b line = match parseScoreField line with
      | some s => max b s
      | none => b := by
  unfold bestScoreFold parseScoreField
  by_cases h3 : (splitComma line).length ≥ 3
  · simp only [if_pos h3]
    cases hp : parseUsize ((splitComma line).getD 2 []) with
    | none => rfl
    | some s =>
      show (if s > b then s else b) = max b s
      rw [Nat.max_def]
      split_ifs <;> omega
  · simp only [if_neg h3]

lemma foldl_bestScoreFold (ls : List (List Nat)) :
    ∀ acc : Nat, ls.foldl bestScoreFold acc = (ls.filterMap parseScoreField).foldl max acc := by
  induction ls with
  | nil => intro acc; rfl
  | cons l ls ih =>
    intro acc
    rw [List.foldl_cons, List.filterMap_cons]
    cases hp : parseScoreField l with
    | none =>
      have hb : bestScoreFold acc l = acc := by rw [bestScoreFold_eq_max, hp]
      rw [hb, ih]
    | some s =>
      have hb : bestScoreFold acc l = max acc s := by rw [bestScoreFold_eq_max, hp]
      rw [hb, List.foldl_cons, ih]

lemma buildMessage_getD (factory init_hash : List Nat) (x y z : Nat)
    (hf : factory.length = 20) (hi : init_hash.length = 32) :
    (buildMessage factory init_hash x y z).getD 52 0 = x % 256 ∧
    (buildMessage factory init_hash x y z).getD 53 0 = y % 256 ∧
    (buildMessage factory init_hash x y z).getD 54 0 = z % 256 := by
  unfold buildMessage
  have hlen : (factory ++ init_hash).length = 52 := by simp [hf, hi]
  refine ⟨?_, ?_, ?_⟩ <;>
  · rw [List.getD_append_right _ _ _ _ (by omega), hlen]
    norm_num

/-! ### Claims -/

/-- Claim C6: the Result Sink best-score read is total: a missing or
unreadable file yields 0, lines with fewer than three comma-separated fields
or an unparseable third field are skipped, and otherwise the result is the
maximum of the score column over all data lines, the header excluded. -/
theorem best_score_total_and_max (lines : List (List Nat)) :
    read_current_best_score none = 0 ∧
    read_current_best_score (some lines) = (scoreColumn lines).foldl max 0 := by
  refine ⟨rfl, ?_⟩
  unfold read_current_best_score scoreColumn
  exact foldl_bestScoreFold (lines.drop 1) 0

/-- Claim C7 (amended): after a successful open of the Result Sink, a failed
data-line write is logged on the error channel, the Hit line is not appended,
and the session continues; the outcome is never a process exit. -/
theorem sink_write_failure_nonfatal (file_exists header_ok : Bool)
    (header_line data_line : List Nat) :
    appendHit file_exists true header_ok false header_line data_line =
      SinkOutcome.continued
        (if file_exists then [] else if header_ok then [header_line] else [])
        (if file_exists then 1 else if header_ok then 1 else 2) := by
  cases file_exists <;> cases header_ok <;> rfl

/-- Claim C7 counterexample: a Result Sink append whose open fails terminates
the whole process with exit code 1, so a sink write failure is not always
non-fatal as the claim states. -/
theorem sink_open_failure_exits_cex :
    appendHit true false true true [] [] = SinkOutcome.exited 1 := rfl

/-- Claim C10: u64_to_le_fixed_8 is the little-endian byte decomposition
(byte i is (x >>> 8·i) mod 256), and it is injective on 64-bit words. -/
theorem u64_le_bytes_and_injective (x y : Nat) (hx : x < 2 ^ 64) (hy : y < 2 ^ 64) :
    u64_to_le_fixed_8 x = (List.range 8).map (fun i => (x >>> (8 * i)) % 256) ∧
    (u64_to_le_fixed_8 x = u64_to_le_fixed_8 y → x = y) := by
  have hmask : ∀ n : Nat, n &&& 255 = n % 256 := fun n => by
    have h := Nat.and_pow_two_sub_one_eq_mod n 8
    norm_num at h
    exact h
  constructor
  · simp only [u64_to_le_fixed_8, List.range_succ, List.range_zero, List.map_cons,
      List.map_nil, List.nil_append, List.cons_append, hmask]
    norm_num [Nat.shiftRight_zero]
  · intro h
    simp only [u64_to_le_fixed_8, List.cons.injEq, and_true] at h
    obtain ⟨h0, h1, h2, h3, h4, h5, h6, h7⟩ := h
    simp only [hmask, Nat.shiftRight_eq_div_pow] at h0 h1 h2 h3 h4 h5 h6 h7
    norm_num at h0 h1 h2 h3 h4 h5 h6 h7 hx hy
    omega

/-- Witness for C10 at the word 3. -/
theorem u64_le_bytes_and_injective_witness :
    u64_to_le_fixed_8 3 = (List.range 8).map (fun i => ((3 : Nat) >>> (8 * i)) % 256) ∧
    (u64_to_le_fixed_8 3 = u64_to_le_fixed_8 3 → (3 : Nat) = 3) :=
  u64_le_bytes_and_injective 3 3 (by decide) (by decide)

/-- Claim C2 (code bug): the device-resident message the kernel reads is
never mutated at all.  The first part states the loop invariant - no
iteration touches the device message, because the loop's only buffer write
is the nonce (src/gpu.rs line 212) - and the rest evaluates the code at a
failing input: starting with an empty sink (best 0), ten seconds later the
sink holds a score-17 record; the session refreshes its cache and host Vec
byte 54 to 17, yet the device message still carries the startup best 0, so
the refreshed best-score filter byte never reaches the kernel. -/
theorem kernel_message_never_refreshed :
    (∀ (st : GpuSession) (t : ℚ) (file : Option (List (List Nat))),
      (dispatchStep st t file).deviceMessage = st.deviceMessage) ∧
    (dispatchStep (sessionInit 0 (List.replicate 20 0) (List.replicate 32 0) 4 4 none)
        10 (some [[104], [97, 44, 98, 44, 49, 55]])).cachedBestScore = 17 ∧
    (dispatchStep (sessionInit 0 (List.replicate 20 0) (List.replicate 32 0) 4 4 none)
        10 (some [[104], [97, 44, 98, 44, 49, 55]])).message.getD 54 0 = 17 ∧
    (dispatchStep (sessionInit 0 (List.replicate 20 0) (List.replicate 32 0) 4 4 none)
        10 (some [[104], [97, 44, 98, 44, 49, 55]])).deviceMessage.getD 54 0 = 0 := by
  have h5 : (10 : ℚ) - 0 ≥ 5 := by norm_num
  refine ⟨fun st t file => rfl, ?_, ?_, ?_⟩ <;>
  · simp only [dispatchStep, loopHead, sessionInit, if_pos h5]
    decide

/-- Claim C8: on a 40-digit lowercase hex address, to_checksum_address
computes exactly the EIP-55 formula: the ASCII bytes of the lowercase string
are hashed with keccak-256, and position i is upper-cased iff it holds a
letter and the i-th nibble of the hash is at least 8; digits are unchanged. -/
theorem to_checksum_address_eip55 (s : List Nat) (hlen : s.length = 40)
    (hs : ∀ c ∈ s, isLowerHex c = true) :
    to_checksum_address s = checksumSpec s := by
  rw [to_checksum_address_lowerHex s hs]
  unfold checksumSpec
  have hbody : checksumCore s = (List.range 40).map (fun i =>
      if (97 ≤ s.getD i 0 ∧ s.getD i 0 ≤ 122) ∧
          8 ≤ ((keccak256 s).getD (i / 2) 0 >>> (if i % 2 = 0 then 4 else 0)) &&& 0xf
      then toUpperByte (s.getD i 0) else s.getD i 0) := by
    rw [checksumCore_eq_range, hlen]
    apply List.map_congr_left
    intro i hi
    have hilt : i < 40 := List.mem_range.mp hi
    have hc := hs (s.getD i 0) (getD_mem_of_lt (by omega))
    rcases isLowerHex_iff.mp hc with hdig | hlet
    · rw [if_pos hdig, if_neg (by omega)]
    · rw [if_neg (by omega)]
      by_cases hnib :
          8 ≤ ((keccak256 s).getD (i / 2) 0 >>> (if i % 2 = 0 then 4 else 0)) &&& 0xf
      · rw [if_pos hnib, if_pos ⟨by omega, hnib⟩]
      · rw [if_neg hnib, if_neg (fun hh => hnib hh.2)]
  rw [hbody]

/-- Witness for C8 at the all-zero address. -/
theorem to_checksum_address_eip55_witness :
    to_checksum_address (hexEncode (List.replicate 20 0)) =
      checksumSpec (hexEncode (List.replicate 20 0)) :=
  to_checksum_address_eip55 (hexEncode (List.replicate 20 0)) (by decide) (by decide)

/-- Claim C9: EIP-55 checksumming is idempotent: for a 20-byte address,
checksumming the already-checksummed string reproduces it, because the
function strips the 0x, lowercases, and recovers the original hex before
hashing. -/
theorem checksum_idempotent (a : List Nat) (_hlen : a.length = 20)
    (hb : ∀ b ∈ a, b < 256) :
    to_checksum_address (to_checksum_address (hexEncode a)) =
      to_checksum_address (hexEncode a) := by
  have hs : ∀ c ∈ hexEncode a, isLowerHex c = true := mem_hexEncode_lowerHex hb
  rw [to_checksum_address_lowerHex (hexEncode a) hs]
  unfold to_checksum_address
  rw [if_pos (show ((48 : Nat) :: 120 :: checksumCore (hexEncode a)).take 2 = [48, 120]
    from rfl)]
  show 48 :: 120 :: checksumCore ((checksumCore (hexEncode a)).map toLowerByte) =
    48 :: 120 :: checksumCore (hexEncode a)
  rw [map_toLower_checksumCore (hexEncode a) hs]

/-- Witness for C9 at the address with bytes 0..19. -/
theorem checksum_idempotent_witness :
    to_checksum_address (to_checksum_address (hexEncode (List.range 20))) =
      to_checksum_address (hexEncode (List.range 20)) :=
  checksum_idempotent (List.range 20) (by decide) (by decide)

/-- Claim C1: every record written to the Result Sink carries, as its
address, the host-rederived CREATE2 address: up to EIP-55 casing (and the
0x front), it is the hex encoding of the low 20 bytes of
keccak-256(0xff ‖ D ‖ salt ‖ I), where salt is the salt recorded in the same
record. -/
theorem hit_address_low20_keccak (factory init_hash : List Nat) (best_score : Nat)
    (solutions : List Nat) (has_solution : Nat) (digest_output : List Nat)
    (rec : HitRecord)
    (hp : processSolution factory init_hash best_score solutions has_solution
      digest_output = some rec) :
    rec.address.take 2 = [48, 120] ∧
    (rec.address.drop 2).map toLowerByte =
      hexEncode (((keccak256 ([0xff] ++ factory ++ rec.salt ++ init_hash)).drop 12).take 20) := by
  have hrec := processSolution_inv hp
  subst hrec
  dsimp only
  have hbytes : ∀ b ∈ ((keccak256 ([0xff] ++ factory ++
      fullSalt (u64_to_le_fixed_8 (solutions.getD 0 0)) ++ init_hash)).drop 12).take 20,
      b < 256 := fun b hb =>
    keccak256_mem_lt _ b (List.mem_of_mem_drop (List.mem_of_mem_take hb))
  have hs : ∀ c ∈ hexEncode (((keccak256 ([0xff] ++ factory ++
      fullSalt (u64_to_le_fixed_8 (solutions.getD 0 0)) ++ init_hash)).drop 12).take 20),
      isLowerHex c = true := mem_hexEncode_lowerHex hbytes
  rw [to_checksum_address_lowerHex _ hs]
  refine ⟨rfl, ?_⟩
  show (checksumCore _).map toLowerByte = _
  exact map_toLower_checksumCore _ hs

/-- Witness for C1 at a concrete dispatch result. -/
theorem hit_address_low20_keccak_witness :
    (to_checksum_address (hexEncode (((keccak256 ([0xff] ++ List.replicate 20 0 ++
        fullSalt (u64_to_le_fixed_8 0) ++ List.replicate 32 0)).drop 12).take 20))).take 2 =
      [48, 120] ∧
    ((to_checksum_address (hexEncode (((keccak256 ([0xff] ++ List.replicate 20 0 ++
        fullSalt (u64_to_le_fixed_8 0) ++ List.replicate 32 0)).drop 12).take 20))).drop 2).map
        toLowerByte =
      hexEncode (((keccak256 ([0xff] ++ List.replicate 20 0 ++
        fullSalt (u64_to_le_fixed_8 0) ++ List.replicate 32 0)).drop 12).take 20) :=
  hit_address_low20_keccak (List.replicate 20 0) (List.replicate 32 0) 0 [0, 5, 6] 1
    (List.replicate 200 0)
    { address := to_checksum_address (hexEncode (((keccak256 ([0xff] ++
        List.replicate 20 0 ++ fullSalt (u64_to_le_fixed_8 0) ++
        List.replicate 32 0)).drop 12).take 20)),
      salt := fullSalt (u64_to_le_fixed_8 0), score := 11,
      leading_ones := 5, trailing_ones := 6 }
    (by rfl)

/-- Claim C3 counterexample: the claim fails on a reachable configuration.
Starting from an empty sink (startup best 0, so the device message's filter
byte is 0), ten seconds later the sink holds a score-17 record and the
session's dispatch-time snapshot is 17; a (5, 6) hit of score 11 passes the
kernel filter carried by the device message (11 > 0) and is appended by the
host (score >= 11 branch), yet its score 11 does not exceed the snapshot 17. -/
theorem vanity_snapshot_violated_cex :
    (dispatchStep (sessionInit 0 (List.replicate 20 0) (List.replicate 32 0) 4 4 none)
        10 (some [[104], [97, 44, 98, 44, 49, 55]])).cachedBestScore = 17 ∧
    kernelPass
      (dispatchStep (sessionInit 0 (List.replicate 20 0) (List.replicate 32 0) 4 4 none)
        10 (some [[104], [97, 44, 98, 44, 49, 55]])).deviceMessage 5 6 ∧
    ((processSolution (List.replicate 20 0) (List.replicate 32 0) 17 [0, 5, 6] 1
        (List.replicate 200 0)).map HitRecord.score) = some 11 ∧
    ¬ ((17 : Nat) < 11) := by
  have h5 : (10 : ℚ) - 0 ≥ 5 := by norm_num
  refine ⟨?_, ?_, rfl, by omega⟩
  · simp only [dispatchStep, loopHead, sessionInit, if_pos h5]
    decide
  · unfold kernelPass
    refine ⟨by decide, by decide, by decide⟩

/-- Claim C3 (amended): under the spec-modelled VanityOnes kernel filter,
every record the host appends satisfies leading_ones ≥ a, trailing_ones ≥ b,
and score strictly above the best-score byte of the message the kernel
actually read: byte 54 of the device copy made at session start, i.e. the
STARTUP snapshot - not the session's current snapshot, which is unrelated
because the device buffer is never re-uploaded.  Thresholds and the startup
best are below 256 (bytes 52-54 are u8 casts; every score the system writes
is at most 80). -/
theorem vanity_hit_exceeds_kernel_byte (factory init_hash : List Nat)
    (min_leading min_trailing best_score : Nat) (t0 : ℚ)
    (file0 : Option (List (List Nat)))
    (solutions : List Nat) (has_solution : Nat) (digest_output : List Nat)
    (rec : HitRecord)
    (hf : factory.length = 20) (hi : init_hash.length = 32)
    (ha : min_leading < 256) (hb : min_trailing < 256)
    (hb0 : read_current_best_score file0 < 256)
    (hk : kernelPass
      (sessionInit t0 factory init_hash min_leading min_trailing file0).deviceMessage
      (solutions.getD 1 0) (solutions.getD 2 0))
    (hp : processSolution factory init_hash best_score solutions has_solution
      digest_output = some rec) :
    min_leading ≤ rec.leading_ones ∧ min_trailing ≤ rec.trailing_ones ∧
      read_current_best_score file0 < rec.score := by
  have hdev : (sessionInit t0 factory init_hash min_leading min_trailing
      file0).deviceMessage = buildMessage factory init_hash min_leading min_trailing
      (read_current_best_score file0) := rfl
  rw [hdev] at hk
  obtain ⟨h52, h53, h54⟩ := hk
  obtain ⟨g52, g53, g54⟩ := buildMessage_getD factory init_hash
    min_leading min_trailing (read_current_best_score file0) hf hi
  rw [g52, Nat.mod_eq_of_lt ha] at h52
  rw [g53, Nat.mod_eq_of_lt hb] at h53
  rw [g54, Nat.mod_eq_of_lt hb0] at h54
  have hrec := processSolution_inv hp
  subst hrec
  exact ⟨h52, h53, h54⟩

/-- Witness for C3's amended theorem: startup best 0 (empty sink), current
snapshot 17, thresholds 4/4 and a reported (5, 6) hit of score 11: the
appended record beats the startup byte (0 < 11) even though it does not beat
the current snapshot. -/
theorem vanity_hit_exceeds_kernel_byte_witness :
    (4 : Nat) ≤ 5 ∧ (4 : Nat) ≤ 6 ∧ read_current_best_score none < 11 :=
  vanity_hit_exceeds_kernel_byte (List.replicate 20 0) (List.replicate 32 0) 4 4 17
    0 none [0, 5, 6] 1 (List.replicate 200 0)
    { address := to_checksum_address (hexEncode (((keccak256 ([0xff] ++
        List.replicate 20 0 ++ fullSalt (u64_to_le_fixed_8 0) ++
        List.replicate 32 0)).drop 12).take 20)),
      salt := fullSalt (u64_to_le_fixed_8 0), score := 11,
      leading_ones := 5, trailing_ones := 6 }
    (by decide) (by decide) (by decide) (by decide) (by decide)
    (by unfold kernelPass; refine ⟨by decide, by decide, by decide⟩) (by rfl)

/-- Claim C4 counterexample: a dispatch whose digest_output does not agree
with the host-recomputed address (here an all-zero digest) is still recorded:
the host never compares the two, so the claimed reject-and-discard path does
not exist. -/
theorem hit_mismatch_still_recorded_cex :
    addressFromDigest (List.replicate 200 0) ≠
      hexEncode (((keccak256 ([0xff] ++ List.replicate 20 0 ++
        fullSalt (u64_to_le_fixed_8 0) ++ List.replicate 32 0)).drop 12).take 20) ∧
    (processSolution (List.replicate 20 0) (List.replicate 32 0) 0 [0, 5, 6] 1
      (List.replicate 200 0)).isSome = true := by
  refine ⟨by decide, rfl⟩

/-- Claim C4 (amended): the hit-processing step never compares the
host-recomputed address with the kernel's digest_output: whenever the
solution flag is set and the score filter passes, a record is appended whose
fields - including the address, recomputed from (D, salt, I) - are
independent of digest_output. -/
theorem hit_append_ignores_digest (factory init_hash : List Nat) (best_score : Nat)
    (solutions : List Nat) (has_solution : Nat) (digest_output : List Nat)
    (h1 : has_solution ≠ 0)
    (h2 : solutions.getD 1 0 + solutions.getD 2 0 ≥ 11 ∨
      solutions.getD 1 0 + solutions.getD 2 0 > best_score) :
    processSolution factory init_hash best_score solutions has_solution digest_output =
      some { address := to_checksum_address (hexEncode (((keccak256 ([0xff] ++ factory ++
               fullSalt (u64_to_le_fixed_8 (solutions.getD 0 0)) ++
               init_hash)).drop 12).take 20)),
             salt := fullSalt (u64_to_le_fixed_8 (solutions.getD 0 0)),
             score := solutions.getD 1 0 + solutions.getD 2 0,
             leading_ones := solutions.getD 1 0,
             trailing_ones := solutions.getD 2 0 } := by
  simp only [processSolution]
  rw [if_pos h1, if_pos h2]

/-- Witness for C4's amended theorem at a concrete passing dispatch. -/
theorem hit_append_ignores_digest_witness :
    processSolution (List.replicate 20 0) (List.replicate 32 0) 3 [1, 4, 9] 2
      (List.replicate 200 7) =
      some { address := to_checksum_address (hexEncode (((keccak256 ([0xff] ++
               List.replicate 20 0 ++ fullSalt (u64_to_le_fixed_8 1) ++
               List.replicate 32 0)).drop 12).take 20)),
             salt := fullSalt (u64_to_le_fixed_8 1), score := 13,
             leading_ones := 4, trailing_ones := 9 } :=
  hit_append_ignores_digest (List.replicate 20 0) (List.replicate 32 0) 3 [1, 4, 9] 2
    (List.replicate 200 7) (by decide) (by decide)

/-- Claim C5: the salt in every appended record is 32 bytes whose first 24
bytes are all zero; the trailing 8 bytes are exactly the little-endian bytes
of the kernel's solution word. -/
theorem hit_salt_zero_prefix (factory init_hash : List Nat) (best_score : Nat)
    (solutions : List Nat) (has_solution : Nat) (digest_output : List Nat)
    (rec : HitRecord)
    (hp : processSolution factory init_hash best_score solutions has_solution
      digest_output = some rec) :
    rec.salt.length = 32 ∧
    rec.salt.take 24 = List.replicate 24 0 ∧
    rec.salt.drop 24 = u64_to_le_fixed_8 (solutions.getD 0 0) := by
  have hrec := processSolution_inv hp
  subst hrec
  dsimp only
  rw [fullSalt_eq _ (u64_to_le_fixed_8_length _)]
  refine ⟨?_, ?_, ?_⟩
  · simp [u64_to_le_fixed_8_length]
  · have ht := @List.take_append Nat (List.replicate 24 0)
      (u64_to_le_fixed_8 (solutions.getD 0 0)) 0
    simp only [List.length_replicate, Nat.add_zero, List.take_zero,
      List.append_nil] at ht
    exact ht
  · have hd := @List.drop_append Nat (List.replicate 24 0)
      (u64_to_le_fixed_8 (solutions.getD 0 0)) 0
    simp only [List.length_replicate, Nat.add_zero, List.drop_zero] at hd
    exact hd

/-- Witness for C5 at the solution word 7. -/
theorem hit_salt_zero_prefix_witness :
    (fullSalt (u64_to_le_fixed_8 7)).length = 32 ∧
    (fullSalt (u64_to_le_fixed_8 7)).take 24 = List.replicate 24 0 ∧
    (fullSalt (u64_to_le_fixed_8 7)).drop 24 = u64_to_le_fixed_8 7 :=
  hit_salt_zero_prefix (List.replicate 20 0) (List.replicate 32 0) 0 [7, 5, 6] 1
    (List.replicate 200 0)
    { address := to_checksum_address (hexEncode (((keccak256 ([0xff] ++
        List.replicate 20 0 ++ fullSalt (u64_to_le_fixed_8 7) ++
        List.replicate 32 0)).drop 12).take 20)),
      salt := fullSalt (u64_to_le_fixed_8 7), score := 11,
      leading_ones := 5, trailing_ones := 6 }
    (by rfl)

end Create2Gpu
